import Mathlib

/-!
Verification development for the student-buddy recommendation backend
(`server.js`).  The definitions below are a shallow embedding of the
server's pure logic and of its stateful request handling:

* the Gemini generation gateway (`generateWithAI`, `callGeminiWithRetry`),
  with the HTTP endpoints abstracted as outcome oracles;
* the TTL response cache (`getCache`, `setCache`, `CACHE_TTL`);
* the heuristic course scorer (`scoreCourse`, `topicGraph`), with JS
  `String.prototype.includes` embedded as `jsIncludes`;
* the weighted-profile decay/reinforcement step of the `/recommend`
  handler (`updateWeightedProfile`, `profilePhase`), with JS numbers
  modelled as exact rationals;
* the LeetCode/HackerRank problem-practice branches (`leetCodeBranch`,
  `hackerRankBranch`) together with `rankAndGenerate`'s JSON-object
  span extraction;
* a small cooperative-interleaving model of the handler's cache-check /
  dedup-check / compute phases (`dedupStep`, `resumeStep`) over the
  process-wide `responseCache` and `pendingRequests` maps.

JavaScript `Map`s and plain objects are embedded as association lists
with first-occurrence lookup; `Date.now()` is an explicit `now : Nat`
parameter (milliseconds); network calls are oracles supplied as
arguments.
-/

/- ===================== generic association lists ===================== -/

/-- Lookup of the first binding of `k`, as in a JS `Map`/object (keys are
unique there, so first-occurrence lookup is faithful). -/
def alistFind {β : Type} : List (String × β) → String → Option β
  | [], _ => none
  | kv :: rest, k => if kv.1 = k then some kv.2 else alistFind rest k

/-- `Map.set` / property assignment: update the existing binding in place,
otherwise append a new one. -/
def alistSet {β : Type} : List (String × β) → String → β → List (String × β)
  | [], k, v => [(k, v)]
  | kv :: rest, k, v => if kv.1 = k then (k, v) :: rest else kv :: alistSet rest k v

/-- `Map.delete`: remove the binding(s) of `k`. -/
def alistDeleteAll {β : Type} : List (String × β) → String → List (String × β)
  | [], _ => []
  | kv :: rest, k => if kv.1 = k then alistDeleteAll rest k else kv :: alistDeleteAll rest k

/- ===================== generation gateway (server.js 140-168, 553-564) ===================== -/

/-- Outcome of one `axios.post` to a Gemini endpoint: `ok t` is a 2xx
response whose extracted `candidates?.[0]?.content?.parts?.[0]?.text` is
`t` (`none` when any of those pieces is missing); `httpErr s` is a thrown
error whose `err.response?.status` is `s` (`none` for a network-level
failure with no response). -/
inductive Outcome where
  | ok (text : Option String)
  | httpErr (status : Option Nat)

/-- JS `text || "[]"`: `undefined` and the empty string are falsy. -/
def jsOr (t : Option String) : String :=
  match t with
  | some s => if s = "" then "[]" else s
  | none => "[]"

/-- Result of the retry loop: the final outcome (the error rethrown on
giving up carries the last status), the number of attempts made against
the primary endpoint, and the list of `setTimeout` delays (ms) slept. -/
structure RetryResult where
  outcome : Except (Option Nat) (Option String)
  attempts : Nat
  delays : List Nat

/-- `callGeminiWithRetry(url, payload, retries)` (server.js 553-564):
posts to the primary endpoint; on an error with `status === 429` and
`retries > 0` it sleeps 2000 ms and recurses with `retries - 1`;
any other error is rethrown.  `prim i` is the outcome of the i-th post. -/
def callGeminiWithRetry (prim : Nat → Outcome) : Nat → Nat → RetryResult
  | i, retries =>
    match prim i with
    | .ok t => ⟨.ok t, 1, []⟩
    | .httpErr s =>
      match retries with
      | 0 => ⟨.error s, 1, []⟩
      | r + 1 =>
        if s = some 429 then
          let rr := callGeminiWithRetry prim (i + 1) r
          ⟨rr.outcome, rr.attempts + 1, 2000 :: rr.delays⟩
        else ⟨.error s, 1, []⟩

/-- Observable behaviour of one `generateWithAI` call: the returned text,
the number of posts to the primary endpoint, the delays slept, and the
number of posts to the fallback endpoint. -/
structure GenResult where
  result : String
  primaryAttempts : Nat
  delays : List Nat
  fallbackCalls : Nat

/-- `generateWithAI(prompt)` (server.js 140-168): try the primary model
through `callGeminiWithRetry` (retries = 3); on success return the
extracted text `|| "[]"`.  On any thrown error post once to the fallback
model; on its success return its text `|| "[]"`; if that also throws,
return the literal `"[]"`.  `fb` is the outcome of the fallback post. -/
def generateWithAI (prim : Nat → Outcome) (fb : Outcome) : GenResult :=
  let r := callGeminiWithRetry prim 0 3
  match r.outcome with
  | .ok t => ⟨jsOr t, r.attempts, r.delays, 0⟩
  | .error _ =>
    match fb with
    | .ok t => ⟨jsOr t, r.attempts, r.delays, 1⟩
    | .httpErr _ => ⟨"[]", r.attempts, r.delays, 1⟩

/- ===================== response cache (server.js 57-75) ===================== -/

/-- One `responseCache` entry: `{ data, timestamp }`. -/
structure CacheEntry (α : Type) where
  data : α
  timestamp : Nat
deriving DecidableEq

/-- `CACHE_TTL = 1000 * 60 * 30` (30 minutes, in ms). -/
def CACHE_TTL : Nat := 1000 * 60 * 30

/-- `getCache(key)` at time `now`: a missing entry yields `null`; an entry
with `now - timestamp > CACHE_TTL` is deleted and yields `null`; otherwise
the stored data is returned and the cache is untouched.  The updated cache
is returned alongside (the JS function mutates the module-level `Map`). -/
def getCache {α : Type} (cache : List (String × CacheEntry α)) (key : String) (now : Nat) :
    Option α × List (String × CacheEntry α) :=
  match alistFind cache key with
  | none => (none, cache)
  | some entry =>
    if CACHE_TTL < now - entry.timestamp then (none, alistDeleteAll cache key)
    else (some entry.data, cache)

/-- `setCache(key, data)` at time `now`. -/
def setCache {α : Type} (cache : List (String × CacheEntry α)) (key : String) (data : α)
    (now : Nat) : List (String × CacheEntry α) :=
  alistSet cache key ⟨data, now⟩

/- ===================== scoring engine (server.js 22-51, 92-119) ===================== -/

/-- JS `toLowerCase` on one character (ASCII range, which is all the
source's titles and topics use). -/
def charToLower (c : Char) : Char :=
  if 65 ≤ c.toNat ∧ c.toNat ≤ 90 then Char.ofNat (c.toNat + 32) else c

/-- JS `s.toLowerCase()`. -/
def jsToLower (s : String) : String :=
  ⟨s.data.map charToLower⟩

/-- ASCII whitespace, as stripped by JS `trim`. -/
def isSpaceChar (c : Char) : Bool :=
  c == ' ' || c == '\t' || c == '\n' || c == '\r'

/-- JS `s.trim()`. -/
def jsTrim (s : String) : String :=
  ⟨((s.data.dropWhile isSpaceChar).reverse.dropWhile isSpaceChar).reverse⟩

/-- `pat` occurs at the head of `l`. -/
def startsWithChars : List Char → List Char → Bool
  | _, [] => true
  | [], _ :: _ => false
  | c :: cs, p :: ps => c == p && startsWithChars cs ps

/-- `pat` occurs as a contiguous segment of `l`. -/
def containsChars : List Char → List Char → Bool
  | [], pat => pat.isEmpty
  | c :: cs, pat => startsWithChars (c :: cs) pat || containsChars cs pat

/-- JS `s.includes(sub)`: substring containment. -/
def jsIncludes (s sub : String) : Bool :=
  containsChars s.data sub.data

/-- The static `topicGraph` table (server.js 22-51); `topicGraph[t] || []`
for an unknown topic is the empty list. -/
def topicGraph (topic : String) : List String :=
  if topic = "machine learning" then
    ["deep learning", "neural networks", "ai", "data science", "supervised learning"]
  else if topic = "data structures" then
    ["algorithms", "time complexity", "recursion", "trees", "graphs"]
  else if topic = "dbms" then
    ["sql", "database design", "normalization", "transactions", "indexing"]
  else if topic = "python" then
    ["automation", "data science", "flask", "django", "pandas"]
  else []

/-- `scoreCourse(courseTitle, topic, dominantTopics)` (server.js 92-119):
+5 for a direct topic match, +3 per related term from the topic graph,
+2 per dominant topic found in the title, and +1/+2/+3 for the
"beginner"/"intermediate"/"advanced" keywords, all via case-insensitive
substring tests on the lowercased title. -/
def scoreCourse (courseTitle topic : String) (dominantTopics : List String) : Int :=
  let title := jsToLower courseTitle
  let baseTopic := jsToLower topic
  let s1 : Int := if jsIncludes title baseTopic then 5 else 0
  let s2 := (topicGraph baseTopic).foldl
    (fun acc rel => if jsIncludes title rel then acc + 3 else acc) s1
  let s3 := dominantTopics.foldl
    (fun acc userTopic => if jsIncludes title userTopic then acc + 2 else acc) s2
  let s4 := if jsIncludes title "beginner" then s3 + 1 else s3
  let s5 := if jsIncludes title "intermediate" then s4 + 2 else s4
  if jsIncludes title "advanced" then s5 + 3 else s5

/- ===================== weighted profile (server.js 334-353) ===================== -/

/-- `user.weightedProfile[k] || 0`: weight of topic `k`, defaulting to 0.
Weights are modelled as exact rationals. -/
def lookupWeight (p : List (String × ℚ)) (k : String) : ℚ :=
  match alistFind p k with
  | some w => w
  | none => 0

/-- The decay loop `for (key in weightedProfile) weightedProfile[key] *= 0.98`. -/
def decayWeights (p : List (String × ℚ)) : List (String × ℚ) :=
  p.map (fun kv => (kv.1, kv.2 * (0.98 : ℚ)))

/-- The profile-update block of the `/recommend` handler (server.js
342-350): decay every existing weight, then, when a non-blank topic is
present, add 1 to the (post-decay) weight of the normalized topic. -/
def updateWeightedProfile (p : List (String × ℚ)) (topic : Option String) :
    List (String × ℚ) :=
  let d := decayWeights p
  match topic with
  | none => d
  | some t =>
    if jsTrim t = "" then d
    else
      let normalized := jsTrim (jsToLower t)
      alistSet d normalized (lookupWeight d normalized + 1)

/-- `User.findOne({userId}) || new User({userId, weightedProfile: {}})`:
the stored profile, or the empty profile for a new user. -/
def loadUser (store : List (String × List (String × ℚ))) (userId : String) :
    List (String × ℚ) :=
  match alistFind store userId with
  | some p => p
  | none => []

/-- The load / decay-update / unconditional `user.save()` phase of the
handler (server.js 334-353), as a transformation of the profile store. -/
def profilePhase (store : List (String × List (String × ℚ))) (userId : String)
    (topic : Option String) : List (String × List (String × ℚ)) :=
  alistSet store userId (updateWeightedProfile (loadUser store userId) topic)

/- ===================== problem-practice branches (server.js 283-311, 373-453) ===================== -/

/-- One recommendation entry `{ title, description, url }` (candidate
entries from the LeetCode adapter carry their difficulty/acceptance data
inside `description`). -/
structure Entry where
  title : String
  description : String
  url : String
deriving DecidableEq

/-- The `{ recommendations: [...] }` unit returned to the caller and
stored in the cache. -/
structure RecResult where
  recommendations : List Entry
deriving DecidableEq

/-- A successfully parsed AI answer object with all the fields the branch
reads (`similar_problems`, `hints`, `solution_outline`). -/
structure AiObj where
  similar_problems : List Entry
  hints : List String
  solution_outline : String
deriving DecidableEq

/-- The synthetic hints entry: `{ title: "💡 AI Hints", description:
ai.hints.join("\n\n"), url: "#" }`. -/
def hintsEntry (hints : List String) : Entry :=
  ⟨"💡 AI Hints", String.intercalate "\n\n" hints, "#"⟩

/-- The synthetic solution entry. -/
def outlineEntry (outline : String) : Entry :=
  ⟨"🧠 Solution Strategy", outline, "#"⟩

/-- The `normalized` recommendation assembly on the AI-success path. -/
def normalizedResult (ai : AiObj) : RecResult :=
  ⟨ai.similar_problems ++ [hintsEntry ai.hints, outlineEntry ai.solution_outline]⟩

/-- Whether the regex `\x7b[\s\S]*\x7d` matches: some `'\x7b'` is
followed, possibly after other characters, by a `'\x7d'`. -/
def braceMatch : List Char → Bool
  | [] => false
  | c :: cs => if c = '\x7b' then cs.contains '\x7d' else braceMatch cs

/-- `match[0]` of that greedy regex: the span from the first `'\x7b'`
through the last `'\x7d'`. -/
def objSpan (s : String) : String :=
  ⟨((s.data.dropWhile (fun c => c != '\x7b')).reverse.dropWhile
      (fun c => c != '\x7d')).reverse⟩

/-- `rankAndGenerate` (server.js 283-311), abstracted over the already
computed `generateWithAI` text and a `JSON.parse` oracle: with no regex
match it throws (`none`); otherwise the extracted span is parsed, `none`
standing for a `JSON.parse` throw or an answer missing the fields the
caller reads. -/
def rankAndGenerate (text : String) (parse : String → Option AiObj) : Option AiObj :=
  if braceMatch text.data then parse (objSpan text) else none

/-- The LeetCode branch (server.js 373-412): guard on blank topic or
description, then AI success assembles `normalizedResult` and caches it;
any throw falls back to the first five raw candidates, which are ALSO
cached.  Returns the response together with the updated cache. -/
def leetCodeBranch (cache : List (String × CacheEntry RecResult)) (cacheKey : String)
    (now : Nat) (topic description : String) (candidates : List Entry)
    (aiText : String) (parse : String → Option AiObj) :
    RecResult × List (String × CacheEntry RecResult) :=
  if topic = "" ∨ description = "" then (⟨[]⟩, cache)
  else
    match rankAndGenerate aiText parse with
    | some ai =>
      let normalized := normalizedResult ai
      (normalized, setCache cache cacheKey normalized now)
    | none =>
      let fallback : RecResult := ⟨candidates.take 5⟩
      (fallback, setCache cache cacheKey fallback now)

/-- The HackerRank branch (server.js 415-453): identical to the LeetCode
branch except that the raw-candidate fallback is returned WITHOUT being
written to the cache. -/
def hackerRankBranch (cache : List (String × CacheEntry RecResult)) (cacheKey : String)
    (now : Nat) (topic description : String) (candidates : List Entry)
    (aiText : String) (parse : String → Option AiObj) :
    RecResult × List (String × CacheEntry RecResult) :=
  if topic = "" ∨ description = "" then (⟨[]⟩, cache)
  else
    match rankAndGenerate aiText parse with
    | some ai =>
      let normalized := normalizedResult ai
      (normalized, setCache cache cacheKey normalized now)
    | none => (⟨candidates.take 5⟩, cache)

/- ===================== request interleaving model (server.js 318-552) ===================== -/

/-- What a request's platform computation (the async IIFE, server.js
369-540) will do once scheduled: resolve with a result, having possibly
written the cache on its way (branch dependent), or reject with a thrown
error (e.g. the provider fetch failing outside any try/catch). -/
inductive CompOutcome where
  | resolve (r : RecResult) (writesCache : Bool)
  | reject
deriving DecidableEq

/-- What was actually sent to the HTTP caller. -/
inductive HttpResponse where
  | json (r : RecResult)
  | error500
deriving DecidableEq

/-- Phase of one handler invocation: `ready` = about to run the
synchronous cache-check/dedup-check/start-computation block; `awaitingComp`
= suspended at `await requestPromise`; `finished sent` = handler returned,
`sent` being the response actually emitted via `res` (`none` when the
handler returned without calling `res.json` / `res.status`). -/
inductive HandlerPhase where
  | ready
  | awaitingComp
  | finished (sent : Option HttpResponse)
deriving DecidableEq

/-- One in-flight `/recommend` invocation. -/
structure ReqThread where
  key : String
  comp : CompOutcome
  phase : HandlerPhase
deriving DecidableEq

/-- The process-wide mutable state: the `responseCache` map, the
`pendingRequests` key set, plus an instrumentation counter of how many
platform computations were ever started. -/
structure Sys where
  responseCache : List (String × CacheEntry RecResult)
  pendingRequests : List String
  compCount : Nat
deriving DecidableEq

/-- The synchronous block at server.js 361-543 run at time `now`:
`getCache` (may lazily evict); on a hit, `res.json(cached)`; else if
`pendingRequests.has(cacheKey)`, `return pendingRequests.get(cacheKey)` —
the handler returns the bare promise WITHOUT calling `res.json`, so
nothing is sent; else start the computation, `pendingRequests.set`, and
suspend at `await requestPromise`. -/
def dedupStep (now : Nat) (s : Sys) (t : ReqThread) : Sys × ReqThread :=
  match t.phase with
  | HandlerPhase.ready =>
    match getCache s.responseCache t.key now with
    | (some r, cache') =>
      ({ s with responseCache := cache' },
       { t with phase := HandlerPhase.finished (some (HttpResponse.json r)) })
    | (none, cache') =>
      if s.pendingRequests.contains t.key then
        ({ s with responseCache := cache' },
         { t with phase := HandlerPhase.finished none })
      else
        (Sys.mk cache' (t.key :: s.pendingRequests) (s.compCount + 1),
         { t with phase := HandlerPhase.awaitingComp })
  | _ => (s, t)

/-- Resumption of a suspended handler at time `now`, when its computation
settles (server.js 543-551): on resolution the branch may have written
the cache, then `pendingRequests.delete(cacheKey)` runs and the result is
sent; on rejection the `await` throws, control jumps to the catch block
which sends a 500 — the `delete` on line 544 is skipped. -/
def resumeStep (now : Nat) (s : Sys) (t : ReqThread) : Sys × ReqThread :=
  match t.phase with
  | HandlerPhase.awaitingComp =>
    match t.comp with
    | CompOutcome.resolve r writes =>
      let cache' := if writes then setCache s.responseCache t.key r now else s.responseCache
      (Sys.mk cache' (s.pendingRequests.erase t.key) s.compCount,
       { t with phase := HandlerPhase.finished (some (HttpResponse.json r)) })
    | CompOutcome.reject =>
      (s, { t with phase := HandlerPhase.finished (some HttpResponse.error500) })
  | _ => (s, t)

/- ===================== theorems: generation gateway ===================== -/

theorem callRetry_eq_ok {prim : Nat → Outcome} {i t : Nat} {tx : Option String}
    (h : prim i = Outcome.ok tx) :
    callGeminiWithRetry prim i t = ⟨Except.ok tx, 1, []⟩ := by
  rw [callGeminiWithRetry, h]

theorem callRetry_eq_err_zero {prim : Nat → Outcome} {i : Nat} {s : Option Nat}
    (h : prim i = Outcome.httpErr s) :
    callGeminiWithRetry prim i 0 = ⟨Except.error s, 1, []⟩ := by
  rw [callGeminiWithRetry, h]

theorem callRetry_eq_err_other {prim : Nat → Outcome} {i r : Nat} {s : Option Nat}
    (h : prim i = Outcome.httpErr s) (hs : s ≠ some 429) :
    callGeminiWithRetry prim i (r + 1) = ⟨Except.error s, 1, []⟩ := by
  rw [callGeminiWithRetry, h]
  simp [hs]

theorem callRetry_eq_429 {prim : Nat → Outcome} {i r : Nat}
    (h : prim i = Outcome.httpErr (some 429)) :
    callGeminiWithRetry prim i (r + 1) =
      ⟨(callGeminiWithRetry prim (i + 1) r).outcome,
       (callGeminiWithRetry prim (i + 1) r).attempts + 1,
       2000 :: (callGeminiWithRetry prim (i + 1) r).delays⟩ := by
  rw [callGeminiWithRetry, h]
  simp

theorem callRetry_attempts_le (prim : Nat → Outcome) (i retries : Nat) :
    (callGeminiWithRetry prim i retries).attempts ≤ retries + 1 := by
  induction retries generalizing i with
  | zero =>
    cases h : prim i with
    | ok t => rw [callRetry_eq_ok h]
    | httpErr s => rw [callRetry_eq_err_zero h]
  | succ r ih =>
    cases h : prim i with
    | ok t => rw [callRetry_eq_ok h]; exact Nat.le_add_left 1 (r + 1)
    | httpErr s =>
      by_cases hs : s = some 429
      · rw [hs] at h
        rw [callRetry_eq_429 h]
        exact Nat.succ_le_succ (ih (i + 1))
      · rw [callRetry_eq_err_other h hs]; exact Nat.le_add_left 1 (r + 1)

theorem callRetry_attempts_pos (prim : Nat → Outcome) (i retries : Nat) :
    1 ≤ (callGeminiWithRetry prim i retries).attempts := by
  induction retries generalizing i with
  | zero =>
    cases h : prim i with
    | ok t => rw [callRetry_eq_ok h]
    | httpErr s => rw [callRetry_eq_err_zero h]
  | succ r ih =>
    cases h : prim i with
    | ok t => rw [callRetry_eq_ok h]
    | httpErr s =>
      by_cases hs : s = some 429
      · rw [hs] at h
        rw [callRetry_eq_429 h]
        exact Nat.le_add_left 1 _
      · rw [callRetry_eq_err_other h hs]

theorem callRetry_delays (prim : Nat → Outcome) (i retries : Nat) :
    (callGeminiWithRetry prim i retries).delays =
      List.replicate ((callGeminiWithRetry prim i retries).attempts - 1) 2000 := by
  induction retries generalizing i with
  | zero =>
    cases h : prim i with
    | ok t => rw [callRetry_eq_ok h]; simp
    | httpErr s => rw [callRetry_eq_err_zero h]; simp
  | succ r ih =>
    cases h : prim i with
    | ok t => rw [callRetry_eq_ok h]; simp
    | httpErr s =>
      by_cases hs : s = some 429
      · rw [hs] at h
        obtain ⟨b, hb⟩ : ∃ b, (callGeminiWithRetry prim (i + 1) r).attempts = b + 1 :=
          ⟨_, (Nat.succ_pred_eq_of_pos (callRetry_attempts_pos prim (i + 1) r)).symm⟩
        rw [callRetry_eq_429 h]
        simp [ih, hb, List.replicate_succ]
      · rw [callRetry_eq_err_other h hs]; simp

theorem callRetry_retried_429 (prim : Nat → Outcome) (i retries : Nat) :
    ∀ j, j + 1 < (callGeminiWithRetry prim i retries).attempts →
      prim (i + j) = Outcome.httpErr (some 429) := by
  induction retries generalizing i with
  | zero =>
    intro j hj
    cases h : prim i with
    | ok t => rw [callRetry_eq_ok h] at hj; simp at hj
    | httpErr s => rw [callRetry_eq_err_zero h] at hj; simp at hj
  | succ r ih =>
    intro j hj
    cases h : prim i with
    | ok t => rw [callRetry_eq_ok h] at hj; simp at hj
    | httpErr s =>
      by_cases hs : s = some 429
      · rw [hs] at h
        rw [callRetry_eq_429 h] at hj
        simp at hj
        cases j with
        | zero => simpa using h
        | succ j' =>
          have e : i + (j' + 1) = (i + 1) + j' := by omega
          rw [e]
          exact ih (i + 1) j' hj
      · rw [callRetry_eq_err_other h hs] at hj; simp at hj

theorem callRetry_error_of_all_fail (prim : Nat → Outcome)
    (h : ∀ j, ∃ s, prim j = Outcome.httpErr s) (i retries : Nat) :
    ∃ s, (callGeminiWithRetry prim i retries).outcome = Except.error s := by
  induction retries generalizing i with
  | zero =>
    obtain ⟨s, hs⟩ := h i
    exact ⟨s, by rw [callRetry_eq_err_zero hs]⟩
  | succ r ih =>
    obtain ⟨s, hs⟩ := h i
    by_cases h429 : s = some 429
    · rw [h429] at hs
      obtain ⟨s', hs'⟩ := ih (i + 1)
      exact ⟨s', by rw [callRetry_eq_429 hs]; exact hs'⟩
    · exact ⟨s, by rw [callRetry_eq_err_other hs h429]⟩

theorem generateWithAI_primaryAttempts (prim : Nat → Outcome) (fb : Outcome) :
    (generateWithAI prim fb).primaryAttempts = (callGeminiWithRetry prim 0 3).attempts := by
  cases hr : (callGeminiWithRetry prim 0 3).outcome <;> cases fb <;>
    simp [generateWithAI, hr]

theorem generateWithAI_delays_eq (prim : Nat → Outcome) (fb : Outcome) :
    (generateWithAI prim fb).delays = (callGeminiWithRetry prim 0 3).delays := by
  cases hr : (callGeminiWithRetry prim 0 3).outcome <;> cases fb <;>
    simp [generateWithAI, hr]

theorem generateWithAI_result_both_fail (prim : Nat → Outcome) (fb : Outcome)
    (hprim : ∀ j, ∃ s, prim j = Outcome.httpErr s)
    (hfb : ∃ s, fb = Outcome.httpErr s) :
    (generateWithAI prim fb).result = "[]" := by
  obtain ⟨s, hs⟩ := callRetry_error_of_all_fail prim hprim 0 3
  obtain ⟨s2, hs2⟩ := hfb
  simp [generateWithAI, hs, hs2]

/-- C3: `generateWithAI` posts to the primary endpoint at most 4 times
(1 initial + up to 3 retries), sleeps a fixed 2000 ms before every retry,
retries only when the previous attempt failed with HTTP 429, calls the
fallback endpoint at most once — exactly once iff the retry chain threw,
in particular exactly once (with no retry) on any non-429 primary error —
and when the fallback also fails it returns the literal string `"[]"`
instead of propagating an error. -/
theorem c3_generateWithAI_retry_and_fallback (prim : Nat → Outcome) (fb : Outcome) :
    (generateWithAI prim fb).primaryAttempts ≤ 4 ∧
    (generateWithAI prim fb).delays =
      List.replicate ((generateWithAI prim fb).primaryAttempts - 1) 2000 ∧
    (∀ j, j + 1 < (generateWithAI prim fb).primaryAttempts →
      prim j = Outcome.httpErr (some 429)) ∧
    (generateWithAI prim fb).fallbackCalls ≤ 1 ∧
    (∀ s, prim 0 = Outcome.httpErr s → s ≠ some 429 →
      (generateWithAI prim fb).primaryAttempts = 1 ∧
      (generateWithAI prim fb).fallbackCalls = 1) ∧
    (∀ t, (callGeminiWithRetry prim 0 3).outcome = Except.ok t →
      (generateWithAI prim fb).fallbackCalls = 0) ∧
    (∀ s, (callGeminiWithRetry prim 0 3).outcome = Except.error s →
      (generateWithAI prim fb).fallbackCalls = 1) ∧
    (∀ s s2, (callGeminiWithRetry prim 0 3).outcome = Except.error s →
      fb = Outcome.httpErr s2 → (generateWithAI prim fb).result = "[]") := by
  refine ⟨?_, ?_, ?_, ?_, ?_, ?_, ?_, ?_⟩
  · rw [generateWithAI_primaryAttempts]
    exact callRetry_attempts_le prim 0 3
  · rw [generateWithAI_delays_eq, generateWithAI_primaryAttempts]
    exact callRetry_delays prim 0 3
  · intro j hj
    rw [generateWithAI_primaryAttempts] at hj
    simpa using callRetry_retried_429 prim 0 3 j hj
  · cases hr : (callGeminiWithRetry prim 0 3).outcome <;> cases fb <;>
      simp [generateWithAI, hr]
  · intro s h0 hs
    have hcall : callGeminiWithRetry prim 0 3 = ⟨Except.error s, 1, []⟩ :=
      callRetry_eq_err_other h0 hs
    constructor
    · rw [generateWithAI_primaryAttempts, hcall]
    · cases fb <;> simp [generateWithAI, hcall]
  · intro t hr
    simp [generateWithAI, hr]
  · intro s hr
    cases fb <;> simp [generateWithAI, hr]
  · intro s s2 hr hfb
    simp [generateWithAI, hr, hfb]

theorem c3_witness :
    (generateWithAI (fun _ => Outcome.httpErr (some 500)) (Outcome.httpErr none)).primaryAttempts
      = 1 ∧
    (generateWithAI (fun _ => Outcome.httpErr (some 500)) (Outcome.httpErr none)).fallbackCalls
      = 1 ∧
    (generateWithAI (fun _ => Outcome.httpErr (some 500)) (Outcome.httpErr none)).result
      = "[]" := by
  have h := c3_generateWithAI_retry_and_fallback
    (fun _ => Outcome.httpErr (some 500)) (Outcome.httpErr none)
  refine ⟨(h.2.2.2.2.1 (some 500) rfl (by simp)).1,
    (h.2.2.2.2.1 (some 500) rfl (by simp)).2, ?_⟩
  exact h.2.2.2.2.2.2.2 (some 500) none (by rw [callRetry_eq_err_other rfl (by simp)]) rfl

/-- C10: a successful primary response whose body carries no text content
(`candidates`/`content`/`parts`/`text` missing, modelled by `ok none`, or
an empty text string) makes `generateWithAI` return the same literal
`"[]"` as a total failure of both endpoints, with the fallback never
consulted; likewise a fallback success without text yields `"[]"`.
Callers therefore cannot distinguish an empty successful answer from a
model failure. -/
theorem c10_generateWithAI_empty_text_indistinguishable
    (prim : Nat → Outcome) (fb : Outcome) :
    (prim 0 = Outcome.ok none →
      (generateWithAI prim fb).result = "[]" ∧
      (generateWithAI prim fb).fallbackCalls = 0) ∧
    (prim 0 = Outcome.ok (some "") → (generateWithAI prim fb).result = "[]") ∧
    (∀ s, (callGeminiWithRetry prim 0 3).outcome = Except.error s →
      fb = Outcome.ok none → (generateWithAI prim fb).result = "[]") ∧
    (prim 0 = Outcome.ok none →
      (generateWithAI prim fb).result =
        (generateWithAI (fun _ => Outcome.httpErr none) (Outcome.httpErr none)).result) := by
  have hfail : (generateWithAI (fun _ => Outcome.httpErr none) (Outcome.httpErr none)).result
      = "[]" := rfl
  refine ⟨?_, ?_, ?_, ?_⟩
  · intro h0
    have hcall : callGeminiWithRetry prim 0 3 = ⟨Except.ok none, 1, []⟩ :=
      callRetry_eq_ok h0
    simp [generateWithAI, hcall, jsOr]
  · intro h0
    have hcall : callGeminiWithRetry prim 0 3 = ⟨Except.ok (some ""), 1, []⟩ :=
      callRetry_eq_ok h0
    simp [generateWithAI, hcall, jsOr]
  · intro s hr hfb
    simp [generateWithAI, hr, hfb, jsOr]
  · intro h0
    have hcall : callGeminiWithRetry prim 0 3 = ⟨Except.ok none, 1, []⟩ :=
      callRetry_eq_ok h0
    rw [hfail]
    simp [generateWithAI, hcall, jsOr]

theorem c10_witness :
    (generateWithAI (fun _ => Outcome.ok none) (Outcome.httpErr none)).result = "[]" ∧
    (generateWithAI (fun _ => Outcome.ok none) (Outcome.httpErr none)).fallbackCalls = 0 := by
  have h := c10_generateWithAI_empty_text_indistinguishable
    (fun _ => Outcome.ok none) (Outcome.httpErr none)
  exact h.1 rfl

/- ===================== theorems: association lists and cache ===================== -/

theorem alistFind_alistSet_self {β : Type} (l : List (String × β)) (k : String) (v : β) :
    alistFind (alistSet l k v) k = some v := by
  induction l with
  | nil => simp [alistSet, alistFind]
  | cons kv rest ih =>
    by_cases h : kv.1 = k
    · simp [alistSet, alistFind, h]
    · simp [alistSet, alistFind, h, ih]

theorem alistFind_alistSet_ne {β : Type} (l : List (String × β)) (k k' : String) (v : β)
    (h : k' ≠ k) : alistFind (alistSet l k v) k' = alistFind l k' := by
  induction l with
  | nil => simp [alistSet, alistFind, Ne.symm h]
  | cons kv rest ih =>
    by_cases hh : kv.1 = k
    · simp [alistSet, alistFind, hh, Ne.symm h]
    · simp [alistSet, alistFind, hh, ih]

theorem alistFind_deleteAll_self {β : Type} (l : List (String × β)) (k : String) :
    alistFind (alistDeleteAll l k) k = none := by
  induction l with
  | nil => simp [alistDeleteAll, alistFind]
  | cons kv rest ih =>
    by_cases h : kv.1 = k <;> simp [alistDeleteAll, alistFind, h, ih]

/-- C6: storing a payload under a key at time `t0` and reading it back at
time `t1` returns exactly the stored payload with the cache untouched as
long as `t1 - t0 ≤ CACHE_TTL` (30 minutes); once `t1 - t0` exceeds the
TTL the read returns absence and lazily deletes the entry, so a further
lookup of the key finds nothing. -/
theorem c6_cache_ttl_roundtrip {α : Type} (cache : List (String × CacheEntry α))
    (key : String) (d : α) (t0 t1 : Nat) :
    (t1 - t0 ≤ CACHE_TTL →
      getCache (setCache cache key d t0) key t1 = (some d, setCache cache key d t0)) ∧
    (CACHE_TTL < t1 - t0 →
      (getCache (setCache cache key d t0) key t1).1 = none ∧
      alistFind (getCache (setCache cache key d t0) key t1).2 key = none) := by
  have hfind : alistFind (alistSet cache key ⟨d, t0⟩) key = some ⟨d, t0⟩ :=
    alistFind_alistSet_self cache key ⟨d, t0⟩
  constructor
  · intro h
    have hn : ¬ CACHE_TTL < t1 - t0 := not_lt.mpr h
    simp [getCache, setCache, hfind, hn]
  · intro h
    simp [getCache, setCache, hfind, h, alistFind_deleteAll_self]

theorem c6_witness :
    getCache (setCache ([] : List (String × CacheEntry Nat)) "LeetCode-problem-dp" 7 0)
        "LeetCode-problem-dp" 1000 =
      (some 7, setCache ([] : List (String × CacheEntry Nat)) "LeetCode-problem-dp" 7 0) ∧
    (getCache (setCache ([] : List (String × CacheEntry Nat)) "LeetCode-problem-dp" 7 0)
        "LeetCode-problem-dp" 2000000).1 = none := by
  have h1 := c6_cache_ttl_roundtrip ([] : List (String × CacheEntry Nat))
    "LeetCode-problem-dp" 7 0 1000
  have h2 := c6_cache_ttl_roundtrip ([] : List (String × CacheEntry Nat))
    "LeetCode-problem-dp" 7 0 2000000
  exact ⟨h1.1 (by norm_num [CACHE_TTL]), (h2.2 (by norm_num [CACHE_TTL])).1⟩

/- ===================== theorems: scoring engine ===================== -/

/-- C9: `scoreCourse` is a pure function (a Lean `def` with no state), so
repeated calls on `("Deep Learning Advanced", "machine learning", [])`
always yield the same value, 6, and that value indeed contains the +3
advanced-keyword bonus ("advanced" occurs in the lowercased title) and
the +3 related-term bonus ("deep learning" is in the topic graph entry
for "machine learning" and occurs in the title), while no +5 direct-match
bonus applies. -/
theorem c9_scoreCourse_deterministic_bonuses :
    scoreCourse "Deep Learning Advanced" "machine learning" [] = 6 ∧
    jsIncludes (jsToLower "Deep Learning Advanced") "deep learning" = true ∧
    "deep learning" ∈ topicGraph (jsToLower "machine learning") ∧
    jsIncludes (jsToLower "Deep Learning Advanced") "advanced" = true ∧
    jsIncludes (jsToLower "Deep Learning Advanced") "machine learning" = false := by
  decide

/- ===================== theorems: weighted profile ===================== -/

theorem lookupWeight_decayWeights (p : List (String × ℚ)) (k : String) :
    lookupWeight (decayWeights p) k = (0.98 : ℚ) * lookupWeight p k := by
  induction p with
  | nil => simp [decayWeights, lookupWeight, alistFind]
  | cons kv rest ih =>
    by_cases h : kv.1 = k
    · simp [decayWeights, lookupWeight, alistFind, h, mul_comm]
    · simpa [decayWeights, lookupWeight, alistFind, h] using ih

theorem lookupWeight_alistSet_self (p : List (String × ℚ)) (k : String) (v : ℚ) :
    lookupWeight (alistSet p k v) k = v := by
  simp [lookupWeight, alistFind_alistSet_self]

theorem lookupWeight_alistSet_ne (p : List (String × ℚ)) (k k' : String) (v : ℚ)
    (h : k' ≠ k) : lookupWeight (alistSet p k v) k' = lookupWeight p k' := by
  simp [lookupWeight, alistFind_alistSet_ne p k k' v h]

/-- C4: on every request the handler decays all existing weights by the
factor 0.98 FIRST and only then adds the current topic's increment of 1,
so the increment itself is never decayed within the request
(`new = 0.98 * old + 1`, not `0.98 * (old + 1)`); every other key is
plainly decayed; with no (or blank) topic every key is decayed; and the
profile store is written for the user unconditionally, topic or not.
Weights are modelled as exact rationals. -/
theorem c4_decay_before_increment_and_unconditional_save
    (store : List (String × List (String × ℚ))) (userId : String)
    (topic : Option String) (p : List (String × ℚ)) :
    (alistFind (profilePhase store userId topic) userId =
      some (updateWeightedProfile (loadUser store userId) topic)) ∧
    (∀ k, lookupWeight (updateWeightedProfile p none) k = (0.98 : ℚ) * lookupWeight p k) ∧
    (∀ t, jsTrim t ≠ "" →
      lookupWeight (updateWeightedProfile p (some t)) (jsTrim (jsToLower t)) =
        (0.98 : ℚ) * lookupWeight p (jsTrim (jsToLower t)) + 1 ∧
      ∀ k, k ≠ jsTrim (jsToLower t) →
        lookupWeight (updateWeightedProfile p (some t)) k =
          (0.98 : ℚ) * lookupWeight p k) := by
  refine ⟨?_, ?_, ?_⟩
  · simp [profilePhase, alistFind_alistSet_self]
  · intro k
    simpa [updateWeightedProfile] using lookupWeight_decayWeights p k
  · intro t ht
    have hupd : updateWeightedProfile p (some t) =
        alistSet (decayWeights p) (jsTrim (jsToLower t))
          (lookupWeight (decayWeights p) (jsTrim (jsToLower t)) + 1) := by
      simp [updateWeightedProfile, ht]
    constructor
    · rw [hupd, lookupWeight_alistSet_self, lookupWeight_decayWeights]
    · intro k hk
      rw [hupd, lookupWeight_alistSet_ne _ _ _ _ hk, lookupWeight_decayWeights]

theorem c4_witness :
    jsTrim "  Python " ≠ "" ∧
    lookupWeight (updateWeightedProfile [("python", (1 : ℚ))] (some "  Python "))
        (jsTrim (jsToLower "  Python ")) =
      (0.98 : ℚ) * lookupWeight [("python", (1 : ℚ))] (jsTrim (jsToLower "  Python ")) + 1 := by
  have h := c4_decay_before_increment_and_unconditional_save [] "u1"
    (some "  Python ") [("python", (1 : ℚ))]
  exact ⟨by decide, (h.2.2 "  Python " (by decide)).1⟩

/- ===================== theorems: problem-practice branches ===================== -/

theorem braceMatch_empty_array : braceMatch ['[', ']'] = false := by decide

theorem rankAndGenerate_empty_array (parse : String → Option AiObj) :
    rankAndGenerate "[]" parse = none := by
  simp [rankAndGenerate, braceMatch_empty_array]

/-- C7: when the generation service fails on both model endpoints,
`generateWithAI` yields `"[]"`, the object-extraction regex finds no
match, `rankAndGenerate` throws, and BOTH problem-practice branches
(LeetCode and HackerRank) respond with exactly the first 5 raw candidates
from the provider adapter, in their original order, with no AI hints or
solution entries appended. -/
theorem c7_double_failure_returns_raw_top5
    (prim : Nat → Outcome) (fb : Outcome)
    (hprim : ∀ j, ∃ s, prim j = Outcome.httpErr s)
    (hfb : ∃ s, fb = Outcome.httpErr s)
    (cache : List (String × CacheEntry RecResult)) (cacheKey : String) (now : Nat)
    (topic description : String) (ht : topic ≠ "") (hd : description ≠ "")
    (candidates : List Entry) (parse : String → Option AiObj) :
    (leetCodeBranch cache cacheKey now topic description candidates
        (generateWithAI prim fb).result parse).1 = ⟨candidates.take 5⟩ ∧
    (hackerRankBranch cache cacheKey now topic description candidates
        (generateWithAI prim fb).result parse).1 = ⟨candidates.take 5⟩ := by
  rw [generateWithAI_result_both_fail prim fb hprim hfb]
  have hno : ¬(topic = "" ∨ description = "") := not_or.mpr ⟨ht, hd⟩
  constructor <;>
    simp [leetCodeBranch, hackerRankBranch, rankAndGenerate_empty_array, hno]

theorem c7_witness :
    (leetCodeBranch [] "LeetCode-problem-graphs" 0 "graphs" "dfs on grids"
        [⟨"Two Sum", "Difficulty: Easy", "https://leetcode.com/problems/two-sum"⟩]
        (generateWithAI (fun _ => Outcome.httpErr none) (Outcome.httpErr none)).result
        (fun _ => none)).1 =
      ⟨[⟨"Two Sum", "Difficulty: Easy", "https://leetcode.com/problems/two-sum"⟩]⟩ := by
  have h := c7_double_failure_returns_raw_top5
    (fun _ => Outcome.httpErr none) (Outcome.httpErr none)
    (fun _ => ⟨none, rfl⟩) ⟨none, rfl⟩
    [] "LeetCode-problem-graphs" 0 "graphs" "dfs on grids"
    (by decide) (by decide)
    [⟨"Two Sum", "Difficulty: Easy", "https://leetcode.com/problems/two-sum"⟩]
    (fun _ => none)
  simpa using h.1

/-- C8: of the two problem-practice branches, the LeetCode one writes its
raw-candidate fallback result into the response cache while the
HackerRank one returns the fallback leaving the cache exactly unchanged;
on the AI-success path both branches cache the normalized result. -/
theorem c8_fallback_cache_asymmetry
    (cache : List (String × CacheEntry RecResult)) (cacheKey : String) (now : Nat)
    (topic description : String) (candidates : List Entry)
    (aiText : String) (parse : String → Option AiObj)
    (ht : topic ≠ "") (hd : description ≠ "") :
    (rankAndGenerate aiText parse = none →
      (leetCodeBranch cache cacheKey now topic description candidates aiText parse).2 =
        setCache cache cacheKey ⟨candidates.take 5⟩ now ∧
      (hackerRankBranch cache cacheKey now topic description candidates aiText parse).2 =
        cache) ∧
    (∀ ai, rankAndGenerate aiText parse = some ai →
      (leetCodeBranch cache cacheKey now topic description candidates aiText parse).2 =
        setCache cache cacheKey (normalizedResult ai) now ∧
      (hackerRankBranch cache cacheKey now topic description candidates aiText parse).2 =
        setCache cache cacheKey (normalizedResult ai) now) := by
  have hno : ¬(topic = "" ∨ description = "") := not_or.mpr ⟨ht, hd⟩
  constructor
  · intro hrg
    constructor <;> simp [leetCodeBranch, hackerRankBranch, hrg, hno]
  · intro ai hrg
    constructor <;> simp [leetCodeBranch, hackerRankBranch, hrg, hno]

theorem c8_witness :
    (hackerRankBranch [] "HackerRank-problem-sql" 0 "sql" "joins" [] "[]"
        (fun _ => none)).2 = [] ∧
    (leetCodeBranch [] "HackerRank-problem-sql" 0 "sql" "joins" [] "[]"
        (fun _ => none)).2 = setCache [] "HackerRank-problem-sql" ⟨[]⟩ 0 := by
  have h := c8_fallback_cache_asymmetry [] "HackerRank-problem-sql" 0 "sql" "joins"
    [] "[]" (fun _ => none) (by decide) (by decide)
  have hp := h.1 (rankAndGenerate_empty_array (fun _ => none))
  exact ⟨hp.2, by simpa using hp.1⟩

/- ===================== theorems: deduplication and pending requests ===================== -/

/-- The canonical two-concurrent-requests interleaving over one cache
key: request A runs its synchronous cache/dedup block at `t0` (cache
miss, no pending entry, so it registers the key and starts the only
computation); request B runs its block at `t1` while A is still in
flight; A's computation then settles at `t2`.  Returns the final shared
state, A's final thread state, and B's final thread state. -/
def twoRequestRun (key : String) (compA compB : CompOutcome) (t0 t1 t2 : Nat) :
    Sys × ReqThread × ReqThread :=
  let r1 := dedupStep t0 ⟨[], [], 0⟩ ⟨key, compA, HandlerPhase.ready⟩
  let r2 := dedupStep t1 r1.1 ⟨key, compB, HandlerPhase.ready⟩
  let r3 := resumeStep t2 r2.1 r1.2
  (r3.1, r3.2, r2.2)

/-- A single request against empty state: the synchronous block at `t0`,
then the resumption when its computation settles at `t1`. -/
def oneRequestRun (key : String) (comp : CompOutcome) (t0 t1 : Nat) :
    Sys × ReqThread :=
  let r1 := dedupStep t0 ⟨[], [], 0⟩ ⟨key, comp, HandlerPhase.ready⟩
  resumeStep t1 r1.1 r1.2

/-- C1 (refutation of the "both callers receive equal results" half):
with two concurrent requests on one cache key, exactly one platform
computation is ever started and the first caller is sent the computed
result — but the joining request finishes having sent NOTHING
(`finished none`): the handler executes
`return pendingRequests.get(cacheKey)`, returning the bare promise
without `res.json`, a return value Express discards, so the second
caller never receives the result. -/
theorem c1_joiner_computes_nothing_but_receives_nothing
    (key : String) (r : RecResult) (writes : Bool) (compB : CompOutcome) (t0 t1 t2 : Nat) :
    (twoRequestRun key (CompOutcome.resolve r writes) compB t0 t1 t2).1.compCount = 1 ∧
    (twoRequestRun key (CompOutcome.resolve r writes) compB t0 t1 t2).2.1.phase =
      HandlerPhase.finished (some (HttpResponse.json r)) ∧
    (twoRequestRun key (CompOutcome.resolve r writes) compB t0 t1 t2).2.2.phase =
      HandlerPhase.finished none ∧
    (twoRequestRun key (CompOutcome.resolve r writes) compB t0 t1 t2).1.pendingRequests
      = [] := by
  simp [twoRequestRun, dedupStep, resumeStep, getCache, alistFind]

/-- C2 (refutation): when the single in-flight computation for a key
REJECTS, the `await requestPromise` throws past the
`pendingRequests.delete(cacheKey)` on the next line into the catch block
(which sends a 500), so the pending entry for the key is never removed;
when the computation resolves successfully the entry IS removed.  The
claimed unconditional removal fails on the failure path. -/
theorem c2_pending_entry_leaks_on_rejection
    (key : String) (r : RecResult) (writes : Bool) (t0 t1 : Nat) :
    ((oneRequestRun key CompOutcome.reject t0 t1).1.pendingRequests = [key] ∧
     (oneRequestRun key CompOutcome.reject t0 t1).2.phase =
       HandlerPhase.finished (some HttpResponse.error500)) ∧
    (oneRequestRun key (CompOutcome.resolve r writes) t0 t1).1.pendingRequests = [] := by
  refine ⟨⟨?_, ?_⟩, ?_⟩ <;>
    simp [oneRequestRun, dedupStep, resumeStep, getCache, alistFind]
